import Mathlib

/-!
Formal model of the tender ingestion and content-safety pipeline.

Python strings are modelled as lists of characters (`Str`); the component
classes of `src/tender_processor.py`, `src/main.py`, `src/scrapers/tender_scraper.py`
and `src/process_sample_tenders.py` are translated into executable Lean
functions below.  Case conversion and the character classes of the sanitizer
are modelled on the ASCII range (the identity elsewhere), which agrees with
Python on every string handled by the pipeline (ASCII plus CJK text, which
Python case conversion also leaves unchanged).
-/

namespace TenderSpec

/-- A Python string, modelled as its sequence of code points. -/
abbrev Str := List Char

/-- The characters Python `str.strip()` / `str.split()` treat as whitespace
(ASCII range): space, tab, newline, carriage return, vertical tab, form feed. -/
def isSpaceChar (c : Char) : Bool :=
  c = ' ' || c = '\t' || c = '\n' || c = '\r' || c.toNat = 11 || c.toNat = 12

/-- ASCII uppercase letter test (`A`-`Z`). -/
def isUpperAsciiChar (c : Char) : Bool :=
  65 ≤ c.toNat && c.toNat ≤ 90

/-- Python `str.lower()` restricted to ASCII: maps `A`-`Z` to `a`-`z`,
identity on everything else (in particular on the CJK range). -/
def lowerChar (c : Char) : Char :=
  if isUpperAsciiChar c then Char.ofNat (c.toNat + 32) else c

/-- Python `s.strip()`: drop leading and trailing whitespace. -/
def stripChars (l : Str) : Str :=
  ((l.dropWhile isSpaceChar).reverse.dropWhile isSpaceChar).reverse

/-- Python substring containment `needle in hay`. -/
def isSubstring (needle : Str) : Str → Bool
  | [] => needle.isEmpty
  | h :: t => List.isPrefixOf needle (h :: t) || isSubstring needle t

/-- The first configured keyword found inside the (already lowercased)
content, mirroring the scan loop of `ContentFilter.is_content_safe`. -/
def firstBlacklistHit (keywords : List Str) (contentLower : Str) : Option Str :=
  match keywords with
  | [] => none
  | k :: ks =>
    if isSubstring k contentLower then some k else firstBlacklistHit ks contentLower

/-- Configuration state of `ContentFilter` (`src/tender_processor.py`). -/
structure FilterConfig where
  blacklistKeywords : List Str
  allowedAgencies : List Str
  minContentLength : Nat
  maxContentLength : Nat
deriving DecidableEq, Repr

/-- The defaults set in `ContentFilter.__init__`. -/
def defaultFilter : FilterConfig where
  blacklistKeywords :=
    ["密碼".data, "password".data, "secret".data, "token".data, "key".data,
     "個人資料".data, "身分證".data, "電話".data, "地址".data]
  allowedAgencies := []
  minContentLength := 10
  maxContentLength := 10000

/-- The closed enumeration of `ContentFilter.is_content_safe` outcomes: the
three rejection messages and acceptance. -/
inductive Verdict where
  | tooShort
  | tooLong
  | blacklistedTerm (keyword : Str)
  | safe
deriving DecidableEq, Repr

/-- `ContentFilter.is_content_safe`: empty-or-short check on the stripped
length, maximum-length check on the raw length, then the blacklist scan on the
lowercased content. -/
def isContentSafe (cfg : FilterConfig) (content : Str) : Verdict :=
  if content = [] ∨ (stripChars content).length < cfg.minContentLength then
    Verdict.tooShort
  else if cfg.maxContentLength < content.length then
    Verdict.tooLong
  else
    match firstBlacklistHit cfg.blacklistKeywords (content.map lowerChar) with
    | some k => Verdict.blacklistedTerm k
    | none => Verdict.safe

/-- `ContentFilter.is_agency_allowed`: an empty allow-list allows everything. -/
def isAgencyAllowed (cfg : FilterConfig) (agency : Str) : Bool :=
  if cfg.allowedAgencies = [] then true else decide (agency ∈ cfg.allowedAgencies)

/-- Helper for Python `content.split()`: accumulate the current word in
reverse, emitting it at each whitespace run and at the end. -/
def splitWsAux : Str → Str → List Str
  | [], acc => if acc = [] then [] else [acc.reverse]
  | c :: t, acc =>
    if isSpaceChar c then
      if acc = [] then splitWsAux t [] else acc.reverse :: splitWsAux t []
    else
      splitWsAux t (c :: acc)

/-- Python `content.split()`: maximal whitespace-free runs, empties dropped. -/
def splitWs (l : Str) : List Str := splitWsAux l []

/-- `\w` of the sanitizer regex, on the ASCII range. -/
def isWordChar (c : Char) : Bool :=
  c.isAlpha || c.isDigit || c = '_'

/-- The explicit CJK block `一-鿿` of the sanitizer regex. -/
def isCjkChar (c : Char) : Bool :=
  19968 ≤ c.toNat && c.toNat ≤ 40959

/-- The punctuation kept by the sanitizer regex of `ContentFilter.clean_content`. -/
def allowedPunct : Str := "，。！？；：「」『』（）【】-.,".data

/-- A character the sanitizer regex keeps. -/
def isAllowedChar (c : Char) : Bool :=
  isWordChar c || isSpaceChar c || isCjkChar c || allowedPunct.contains c

/-- `ContentFilter.clean_content`: collapse whitespace runs to single spaces
(`' '.join(content.split())`), delete disallowed characters, then strip. -/
def cleanContent (content : Str) : Str :=
  let collapsed := List.intercalate [' '] (splitWs content)
  stripChars (collapsed.filter isAllowedChar)

/-- A candidate unit: a titled text block (the `title`/`content` pair the
processor reads off each episode object). -/
structure Episode where
  title : Str
  content : Str
deriving DecidableEq, Repr

/-- A custom entity as read by the processor: its type tag and name. -/
structure EntityData where
  entityType : Str
  name : Str
deriving DecidableEq, Repr

/-- The `stats` dictionary of `TenderProcessor`. -/
structure Stats where
  totalProcessed : Nat
  successfulWrites : Nat
  filteredContent : Nat
  previewRejected : Nat
deriving DecidableEq, Repr

/-- The mutable state of a `TenderProcessor` instance: the set of already
processed tender ids and the statistics counters. -/
structure PState where
  processedTenders : List Str
  stats : Stats
deriving DecidableEq, Repr

/-- The fields of the parsed tender document that `process_tender` reads:
`tender_name` (`none` models a missing or `None` field), `agency`
(`get("agency", "")`, so the empty string models absence), plus the episode
and entity lists derived from the document by the conversion helpers. -/
structure TenderDoc where
  tenderName : Option Str
  agency : Str
  episodes : List Episode
  entities : List EntityData
deriving DecidableEq, Repr

/-- The Python truthiness test `tender_data.get("tender_name")`:
false for a missing field, a `None` value, or an empty string. -/
def hasTenderName : Option Str → Bool
  | none => false
  | some s => !s.isEmpty

/-- Constructor flags of `TenderProcessor`: whether the content filter
object exists, its configuration, and the preview flag. -/
structure ProcessorConfig where
  enableContentFilter : Bool
  filter : FilterConfig
  enablePreview : Bool
deriving DecidableEq, Repr

/-- One per-episode entry of the preview dictionary built by
`WritePreview.preview_episodes` (title, 200-character preview, length). -/
structure PreviewEntry where
  title : Str
  contentPreview : Str
  contentLength : Nat
deriving DecidableEq, Repr

/-- The preview dictionary built by `WritePreview.preview_episodes`. -/
structure PreviewData where
  episodesCount : Nat
  entitiesCount : Nat
  episodeEntries : List PreviewEntry
deriving DecidableEq, Repr

/-- `WritePreview.preview_episodes`. -/
def previewEpisodes (episodes : List Episode) (entities : List EntityData) : PreviewData where
  episodesCount := episodes.length
  entitiesCount := entities.length
  episodeEntries := episodes.map fun e =>
    { title := e.title
      contentPreview :=
        if 200 < e.content.length then e.content.take 200 ++ "...".data else e.content
      contentLength := e.content.length }

/-- `WritePreview.should_proceed`: with preview disabled it returns `True`
immediately; with preview enabled it logs the summary and also returns
`True` unconditionally. -/
def shouldProceed (enablePreview : Bool) (_previewData : PreviewData) : Bool :=
  if !enablePreview then true
  else true

/-- The content-filter loop of `process_tender` (step 5): each unsafe episode
increments `filtered_content` and is dropped; each safe episode is kept with
its content replaced by the sanitized content.  Returns the surviving
episodes and the updated `filtered_content` counter. -/
def filterEpisodes (cfg : FilterConfig) : List Episode → Nat → List Episode × Nat
  | [], filtered => ([], filtered)
  | e :: rest, filtered =>
    match isContentSafe cfg e.content with
    | Verdict.safe =>
      let r := filterEpisodes cfg rest filtered
      ({ title := e.title, content := cleanContent e.content } :: r.1, r.2)
    | _ => filterEpisodes cfg rest (filtered + 1)

/-- The per-episode commit loop of `process_tender` (step 11): each write is
attempted inside its own `try`; a failure is logged and the loop continues.
`writeOk i` is the outcome of the `i`-th store write of this call.  Returns
the number of successful writes, the episodes actually committed to the
store, and the next write index. -/
def writeEpisodes (writeOk : Nat → Bool) : Nat → List Episode → Nat × List Episode × Nat
  | idx, [] => (0, [], idx)
  | idx, e :: rest =>
    let r := writeEpisodes writeOk (idx + 1) rest
    if writeOk idx then (r.1 + 1, e :: r.2.1, r.2.2) else r

/-- The entity-summary text built in step 12 of `process_tender`. -/
def entitySummaryText (entities : List EntityData) : Str :=
  entities.foldl
    (fun acc ent => acc ++ "- ".data ++ ent.entityType ++ ": ".data ++ ent.name ++ "\n".data)
    "自定義實體類型：\n".data

/-- Step 12 of `process_tender`: when entities exist, build the summary,
safety-check and sanitize it when the filter is enabled, and attempt one
store write when it passed; a write failure is caught.  Returns the success
count (0 or 1) and the committed summary unit, if any. -/
def entitySummaryStep (cfg : ProcessorConfig) (doc : TenderDoc) (writeOk : Nat → Bool)
    (idx : Nat) : Nat × List Episode :=
  if doc.entities = [] then (0, [])
  else
    let summary := entitySummaryText doc.entities
    let name :=
      "實體摘要_".data ++ (match doc.tenderName with | some s => s | none => "未知".data)
    if cfg.enableContentFilter then
      match isContentSafe cfg.filter summary with
      | Verdict.safe =>
        let cleaned := cleanContent summary
        if writeOk idx then (1, [{ title := name, content := cleaned }]) else (0, [])
      | _ => (0, [])
    else
      if writeOk idx then (1, [{ title := name, content := summary }]) else (0, [])

/-- The environment one `process_tender` call runs against: the scraper
outcome (`Except.error` models the exception raised after retries are
exhausted), the parsed document for the fetched page, and the outcome of
each store write. -/
structure Env where
  fetchResult : Except Unit Str
  doc : TenderDoc
  writeOk : Nat → Bool

/-- Observable outcome of one `process_tender` call: its return value (or
propagated exception), the updated processor state, and the units committed
to the external store during the call. -/
structure ProcResult where
  result : Except Unit (List Episode)
  state : PState
  committed : List Episode

/-- `TenderProcessor.process_tender`, translated step by step:
increment `total_processed`; short-circuit on an already-processed id;
fetch (a fetch failure is logged by the outer handler and re-raised);
give up without a usable `tender_name`; apply the agency gate, the content
filter loop, the preview gate; skip empty batches; run the per-episode write
loop and the entity-summary write; count at most one successful write per
identifier; record the identifier as processed. -/
def processTender (cfg : ProcessorConfig) (env : Env) (st : PState)
    (tenderId : Str) (forceUpdate : Bool) : ProcResult :=
  let st1 : PState :=
    { st with stats := { st.stats with totalProcessed := st.stats.totalProcessed + 1 } }
  if forceUpdate = false ∧ tenderId ∈ st1.processedTenders then
    { result := Except.ok [], state := st1, committed := [] }
  else
    match env.fetchResult with
    | Except.error e => { result := Except.error e, state := st1, committed := [] }
    | Except.ok _html =>
      let doc := env.doc
      if hasTenderName doc.tenderName = false then
        { result := Except.ok [], state := st1, committed := [] }
      else if cfg.enableContentFilter = true ∧ doc.agency ≠ [] ∧
          isAgencyAllowed cfg.filter doc.agency = false then
        { result := Except.ok []
          state :=
            { st1 with stats :=
              { st1.stats with filteredContent := st1.stats.filteredContent + 1 } }
          committed := [] }
      else
        let fr :=
          if cfg.enableContentFilter then
            filterEpisodes cfg.filter doc.episodes st1.stats.filteredContent
          else (doc.episodes, st1.stats.filteredContent)
        let episodes := fr.1
        let st2 : PState := { st1 with stats := { st1.stats with filteredContent := fr.2 } }
        let pd := previewEpisodes episodes doc.entities
        if shouldProceed cfg.enablePreview pd = false then
          { result := Except.ok []
            state :=
              { st2 with stats :=
                { st2.stats with previewRejected := st2.stats.previewRejected + 1 } }
            committed := [] }
        else if episodes = [] then
          { result := Except.ok [], state := st2, committed := [] }
        else
          let wr := writeEpisodes env.writeOk 0 episodes
          let es := entitySummaryStep cfg doc env.writeOk wr.2.2
          let succ := wr.1 + es.1
          let st3 : PState :=
            if 0 < succ then
              { st2 with stats :=
                { st2.stats with successfulWrites := st2.stats.successfulWrites + 1 } }
            else st2
          let st4 : PState := { st3 with processedTenders := tenderId :: st3.processedTenders }
          { result := Except.ok episodes, state := st4, committed := wr.2.1 ++ es.2 }

/-! ### Deduplication gate (`src/main.py`) -/

/-- `check_episode_exists_by_name`: the Neo4j count query either fails
(`Except.error`) or returns an optional record.  The whole body is wrapped in
`try`: any failure is logged and answered with `False`; otherwise the count
(0 for a missing record) is compared with 0. -/
def checkEpisodeExistsByName (queryOutcome : Except Unit (Option Nat)) : Bool :=
  match queryOutcome with
  | Except.error _ => false
  | Except.ok record =>
    let count := match record with | some n => n | none => 0
    decide (0 < count)

/-- The `stats` dictionary of `process_episodes_batch`. -/
structure BatchStats where
  totalProcessed : Nat
  newAdded : Nat
  updated : Nat
  skipped : Nat
deriving DecidableEq, Repr

/-- Outcome of one `add_episode_if_not_exists` call: the updated counters,
whether a store write was attempted, and whether it succeeded. -/
structure AddOutcome where
  stats : BatchStats
  writeAttempted : Bool
  written : Bool
deriving DecidableEq, Repr

/-- `add_episode_if_not_exists`: skip (and count) when the existence check
answers `True`; otherwise attempt the write, counting a success under
`new_added`/`total_processed` and a caught write failure under `skipped`. -/
def addEpisodeIfNotExists (existsQuery : Except Unit (Option Nat))
    (writeResult : Except Unit Unit) (stats : BatchStats) : AddOutcome :=
  if checkEpisodeExistsByName existsQuery then
    { stats := { stats with skipped := stats.skipped + 1 }
      writeAttempted := false, written := false }
  else
    match writeResult with
    | Except.ok _ =>
      { stats := { stats with
          newAdded := stats.newAdded + 1
          totalProcessed := stats.totalProcessed + 1 }
        writeAttempted := true, written := true }
    | Except.error _ =>
      { stats := { stats with skipped := stats.skipped + 1 }
        writeAttempted := true, written := false }

/-! ### Fetcher (`src/scrapers/tender_scraper.py`) -/

/-- Outcome of one GET attempt inside `TenderScraper._fetch`: a 200 response
with its body, a non-200 status, or a raised network exception. -/
inductive AttemptOutcome where
  | success (text : Str)
  | httpStatus (code : Nat)
  | networkError
deriving Repr

/-- Whether the attempt was a 200 response. -/
def AttemptOutcome.isSuccessful : AttemptOutcome → Bool
  | AttemptOutcome.success _ => true
  | _ => false

/-- Observable outcome of `_fetch`: the returned text or the final
exception, the cumulative exponential-backoff sleep in seconds, and how many
random jitter sleeps were performed (one per successful attempt; the jitter
duration is drawn from `request_delay` and not modelled further). -/
structure FetchOutcome where
  result : Except Unit Str
  backoffSleep : Nat
  jitterSleeps : Nat
deriving Repr

/-- The retry loop of `_fetch`: attempts are numbered from 1; a 200 response
returns (after the jitter sleep); any other outcome sleeps `2 ^ attempt`
seconds and retries; exhausting `max_retries` raises. -/
def fetchLoop (oracle : Nat → AttemptOutcome) : Nat → Nat → FetchOutcome
  | _attempt, 0 => { result := Except.error (), backoffSleep := 0, jitterSleeps := 0 }
  | attempt, fuel + 1 =>
    match oracle attempt with
    | AttemptOutcome.success text =>
      { result := Except.ok text, backoffSleep := 0, jitterSleeps := 1 }
    | _ =>
      let r := fetchLoop oracle (attempt + 1) fuel
      { result := r.result
        backoffSleep := 2 ^ attempt + r.backoffSleep
        jitterSleeps := r.jitterSleeps }

/-- `TenderScraper._fetch` with `max_retries` attempts (default 3), where
`oracle a` is the outcome of attempt number `a`. -/
def fetchModel (oracle : Nat → AttemptOutcome) (maxRetries : Nat) : FetchOutcome :=
  fetchLoop oracle 1 maxRetries

/-! ### Per-file write loop of `SampleTenderProcessor` (`src/process_sample_tenders.py`) -/

/-- The per-episode write loop of `SampleTenderProcessor.process_html_file`:
like the orchestrator loop, but a caught write failure also appends one
entry to the `errors` list.  Returns the success count, the number of error
entries appended, and the next write index. -/
def sampleWriteLoop (writeOk : Nat → Bool) : Nat → List Episode → Nat × Nat × Nat
  | idx, [] => (0, 0, idx)
  | idx, _e :: rest =>
    let r := sampleWriteLoop writeOk (idx + 1) rest
    if writeOk idx then (r.1 + 1, r.2.1, r.2.2) else (r.1, r.2.1 + 1, r.2.2)

/-! ### Identity key of an episode (`Episode.get_content_hash` / `get_unique_name`
in `src/main.py`)

The key is `title + "_" + md5(utf8(title + ":" + content)).hexdigest()[:8]`.
MD5 (RFC 1321) is implemented below over byte lists, with 32-bit words
represented as naturals kept below `2 ^ 32`. -/

/-- Reduce modulo `2 ^ 32`. -/
def w32 (n : Nat) : Nat := n % 4294967296

/-- Bitwise complement on 32-bit values (for `x < 2 ^ 32`). -/
def mnot32 (x : Nat) : Nat := 4294967295 - w32 x

/-- Rotate a 32-bit value left by `s` (for `x < 2 ^ 32`, `s ≤ 32`): the two
summands occupy disjoint bit ranges, so the sum is the rotated word. -/
def rotl32 (x s : Nat) : Nat := w32 (x * 2 ^ s) + x / 2 ^ (32 - s)

/-- MD5 round function of rounds 0-15. -/
def md5F (b c d : Nat) : Nat := (b &&& c) ||| (mnot32 b &&& d)

/-- MD5 round function of rounds 16-31. -/
def md5G (b c d : Nat) : Nat := (d &&& b) ||| (mnot32 d &&& c)

/-- MD5 round function of rounds 32-47. -/
def md5H (b c d : Nat) : Nat := b ^^^ c ^^^ d

/-- MD5 round function of rounds 48-63. -/
def md5I (b c d : Nat) : Nat := c ^^^ (b ||| mnot32 d)

/-- The 64 MD5 sine-derived constants. -/
def md5K : List Nat :=
  [0xd76aa478, 0xe8c7b756, 0x242070db, 0xc1bdceee,
   0xf57c0faf, 0x4787c62a, 0xa8304613, 0xfd469501,
   0x698098d8, 0x8b44f7af, 0xffff5bb1, 0x895cd7be,
   0x6b901122, 0xfd987193, 0xa679438e, 0x49b40821,
   0xf61e2562, 0xc040b340, 0x265e5a51, 0xe9b6c7aa,
   0xd62f105d, 0x02441453, 0xd8a1e681, 0xe7d3fbc8,
   0x21e1cde6, 0xc33707d6, 0xf4d50d87, 0x455a14ed,
   0xa9e3e905, 0xfcefa3f8, 0x676f02d9, 0x8d2a4c8a,
   0xfffa3942, 0x8771f681, 0x6d9d6122, 0xfde5380c,
   0xa4beea44, 0x4bdecfa9, 0xf6bb4b60, 0xbebfbc70,
   0x289b7ec6, 0xeaa127fa, 0xd4ef3085, 0x04881d05,
   0xd9d4d039, 0xe6db99e5, 0x1fa27cf8, 0xc4ac5665,
   0xf4292244, 0x432aff97, 0xab9423a7, 0xfc93a039,
   0x655b59c3, 0x8f0ccc92, 0xffeff47d, 0x85845dd1,
   0x6fa87e4f, 0xfe2ce6e0, 0xa3014314, 0x4e0811a1,
   0xf7537e82, 0xbd3af235, 0x2ad7d2bb, 0xeb86d391]

/-- The 64 MD5 per-step rotation amounts. -/
def md5S : List Nat :=
  [7, 12, 17, 22, 7, 12, 17, 22, 7, 12, 17, 22, 7, 12, 17, 22,
   5, 9, 14, 20, 5, 9, 14, 20, 5, 9, 14, 20, 5, 9, 14, 20,
   4, 11, 16, 23, 4, 11, 16, 23, 4, 11, 16, 23, 4, 11, 16, 23,
   6, 10, 15, 21, 6, 10, 15, 21, 6, 10, 15, 21, 6, 10, 15, 21]

/-- The four MD5 state words. -/
structure MD5State where
  a : Nat
  b : Nat
  c : Nat
  d : Nat
deriving DecidableEq, Repr

/-- The MD5 initial state. -/
def md5Init : MD5State := ⟨0x67452301, 0xefcdab89, 0x98badcfe, 0x10325476⟩

/-- One of the 64 MD5 steps on message schedule `M`. -/
def md5Step (M : Nat → Nat) (st : MD5State) (i : Nat) : MD5State :=
  let fg :=
    if i < 16 then (md5F st.b st.c st.d, i)
    else if i < 32 then (md5G st.b st.c st.d, (5 * i + 1) % 16)
    else if i < 48 then (md5H st.b st.c st.d, (3 * i + 5) % 16)
    else (md5I st.b st.c st.d, (7 * i) % 16)
  let tmp := w32 (st.a + fg.1 + md5K.getD i 0 + M fg.2)
  { a := st.d
    b := w32 (st.b + rotl32 tmp (md5S.getD i 0))
    c := st.b
    d := st.c }

/-- A little-endian 32-bit word from four bytes. -/
def bytesToWord (b0 b1 b2 b3 : Nat) : Nat :=
  b0 + 256 * b1 + 65536 * b2 + 16777216 * b3

/-- Word `j` of a 64-byte block. -/
def blockWords (block : List Nat) (j : Nat) : Nat :=
  bytesToWord (block.getD (4 * j) 0) (block.getD (4 * j + 1) 0)
    (block.getD (4 * j + 2) 0) (block.getD (4 * j + 3) 0)

/-- Process one 64-byte block: run the 64 steps and add the result to the
incoming state modulo `2 ^ 32`. -/
def md5ProcessBlock (st : MD5State) (block : List Nat) : MD5State :=
  let r := (List.range 64).foldl (md5Step (blockWords block)) st
  { a := w32 (st.a + r.a), b := w32 (st.b + r.b), c := w32 (st.c + r.c), d := w32 (st.d + r.d) }

/-- The eight little-endian bytes of the 64-bit bit-length field. -/
def lenBytes8 (n : Nat) : List Nat :=
  [n % 256, n / 256 % 256, n / 65536 % 256, n / 16777216 % 256,
   n / 4294967296 % 256, n / 1099511627776 % 256,
   n / 281474976710656 % 256, n / 72057594037927936 % 256]

/-- MD5 padding: a `0x80` byte, zeros up to 56 bytes modulo 64, then the
message bit length. -/
def md5Pad (msg : List Nat) : List Nat :=
  msg ++ [128] ++ List.replicate ((119 - msg.length % 64) % 64) 0 ++ lenBytes8 (8 * msg.length)

/-- Split a byte list into 64-byte chunks. -/
def chunks64 : List Nat → List (List Nat)
  | [] => []
  | b :: rest => ((b :: rest).take 64) :: chunks64 ((b :: rest).drop 64)
termination_by l => l.length
decreasing_by simp [List.length_drop]; omega

/-- The MD5 state after absorbing the padded message. -/
def md5FinalState (msg : List Nat) : MD5State :=
  (chunks64 (md5Pad msg)).foldl md5ProcessBlock md5Init

/-- The four little-endian bytes of a 32-bit word. -/
def bytesLE4 (x : Nat) : List Nat :=
  [x % 256, x / 256 % 256, x / 65536 % 256, x / 16777216 % 256]

/-- The 16-byte MD5 digest. -/
def md5Digest (msg : List Nat) : List Nat :=
  let st := md5FinalState msg
  bytesLE4 st.a ++ bytesLE4 st.b ++ bytesLE4 st.c ++ bytesLE4 st.d

/-- A hexadecimal digit character. -/
def hexDigitChar (n : Nat) : Char := "0123456789abcdef".data.getD n '0'

/-- The two hex characters of one byte, high nibble first. -/
def hexByte (b : Nat) : List Char := [hexDigitChar (b / 16), hexDigitChar (b % 16)]

/-- Lowercase hex rendering of a byte list (`hexdigest()`). -/
def hexBytes (bytes : List Nat) : List Char :=
  bytes.foldr (fun b acc => hexByte b ++ acc) []

/-- `str.encode("utf-8")` of one code point. -/
def utf8Char (c : Char) : List Nat :=
  let n := c.toNat
  if n < 128 then [n]
  else if n < 2048 then [192 + n / 64, 128 + n % 64]
  else if n < 65536 then [224 + n / 4096, 128 + n / 64 % 64, 128 + n % 64]
  else [240 + n / 262144, 128 + n / 4096 % 64, 128 + n / 64 % 64, 128 + n % 64]

/-- `str.encode("utf-8")` of a string. -/
def utf8Encode (s : Str) : List Nat :=
  (s.map utf8Char).foldr (fun bs acc => bs ++ acc) []

/-- `Episode.get_content_hash`: the first 8 hex characters of the MD5 of
`title + ":" + content`. -/
def getContentHash (title content : Str) : Str :=
  (hexBytes (md5Digest (utf8Encode (title ++ [':'] ++ content)))).take 8

/-- `Episode.get_unique_name`: the title, an underscore, and the hash. -/
def getUniqueName (title content : Str) : Str :=
  title ++ ['_'] ++ getContentHash title content

/-! ### Helper lemmas -/

theorem stripChars_length_le (l : Str) : (stripChars l).length ≤ l.length := by
  unfold stripChars
  calc ((l.dropWhile isSpaceChar).reverse.dropWhile isSpaceChar).reverse.length
      = ((l.dropWhile isSpaceChar).reverse.dropWhile isSpaceChar).length := by
        rw [List.length_reverse]
    _ ≤ (l.dropWhile isSpaceChar).reverse.length := (List.dropWhile_sublist _).length_le
    _ = (l.dropWhile isSpaceChar).length := by rw [List.length_reverse]
    _ ≤ l.length := (List.dropWhile_sublist _).length_le

theorem isSubstring_subset {n h : Str} (hs : isSubstring n h = true) :
    ∀ c ∈ n, c ∈ h := by
  induction h with
  | nil =>
    cases n with
    | nil => intro c hc; cases hc
    | cons a t => simp [isSubstring] at hs
  | cons hd tl ih =>
    rw [isSubstring, Bool.or_eq_true] at hs
    rcases hs with h1 | h2
    · intro c hc
      exact (List.isPrefixOf_iff_prefix.mp h1).subset hc
    · intro c hc
      exact List.mem_cons_of_mem _ (ih h2 c hc)

/-! ### C5: the duplicate check is fail-open -/

/-- C5.  For every unit and store state, the duplicate check never throws:
when the store query fails with any exception, `check_episode_exists_by_name`
answers `False` (not a duplicate), and `add_episode_if_not_exists` then
proceeds to attempt the store write. -/
theorem c5_dedup_check_fail_open :
    (∀ e : Unit, checkEpisodeExistsByName (Except.error e) = false) ∧
    (∀ (e : Unit) (writeResult : Except Unit Unit) (stats : BatchStats),
      (addEpisodeIfNotExists (Except.error e) writeResult stats).writeAttempted = true) := by
  constructor
  · intro e; rfl
  · intro e writeResult stats
    unfold addEpisodeIfNotExists
    rw [if_neg]
    · cases writeResult <;> rfl
    · simp [checkEpisodeExistsByName]

/-! ### C6: retry exhaustion and cumulative backoff -/

theorem fetchLoop_fail (oracle : Nat → AttemptOutcome) (a fuel : Nat)
    (h : (oracle a).isSuccessful = false) :
    fetchLoop oracle a (fuel + 1) =
      { result := (fetchLoop oracle (a + 1) fuel).result
        backoffSleep := 2 ^ a + (fetchLoop oracle (a + 1) fuel).backoffSleep
        jitterSleeps := (fetchLoop oracle (a + 1) fuel).jitterSleeps } := by
  cases ho : oracle a with
  | success t => rw [ho] at h; simp [AttemptOutcome.isSuccessful] at h
  | httpStatus c => simp only [fetchLoop, ho]
  | networkError => simp only [fetchLoop, ho]

/-- C6.  A fetcher configured with 3 retries whose every GET attempt fails
raises the retries-exhausted error, after sleeping `2 ^ attempt` seconds of
exponential backoff following each failed attempt, for a cumulative backoff
of at least `2 ^ 1 + 2 ^ 2` seconds. -/
theorem c6_retries_exhausted_with_backoff (oracle : Nat → AttemptOutcome)
    (h1 : (oracle 1).isSuccessful = false)
    (h2 : (oracle 2).isSuccessful = false)
    (h3 : (oracle 3).isSuccessful = false) :
    (fetchModel oracle 3).result = Except.error () ∧
    2 ^ 1 + 2 ^ 2 ≤ (fetchModel oracle 3).backoffSleep := by
  have e1 := fetchLoop_fail oracle 1 2 h1
  have e2 := fetchLoop_fail oracle 2 1 h2
  have e3 := fetchLoop_fail oracle 3 0 h3
  unfold fetchModel
  rw [show (3 : Nat) = 2 + 1 from rfl, e1]
  norm_num at e2 e3 ⊢
  rw [e2, e3]
  simp [fetchLoop]

/-- Witness for C6 at an oracle whose every attempt raises a network error. -/
theorem c6_witness :
    (fetchModel (fun _ => AttemptOutcome.networkError) 3).result = Except.error () ∧
    2 ^ 1 + 2 ^ 2 ≤ (fetchModel (fun _ => AttemptOutcome.networkError) 3).backoffSleep :=
  c6_retries_exhausted_with_backoff (fun _ => AttemptOutcome.networkError) rfl rfl rfl

/-! ### C7: an absent case name is a soft skip -/

/-- C7.  When the fetched document parses to an absent (or empty) tender
name, `process_tender` returns the empty list, increments `total_processed`,
leaves `successful_writes` unchanged, and commits nothing. -/
theorem c7_absent_name_soft_skip (cfg : ProcessorConfig) (env : Env) (st : PState)
    (tenderId : Str) (forceUpdate : Bool) (html : Str)
    (hfetch : env.fetchResult = Except.ok html)
    (hname : hasTenderName env.doc.tenderName = false) :
    (processTender cfg env st tenderId forceUpdate).result = Except.ok [] ∧
    (processTender cfg env st tenderId forceUpdate).state.stats.totalProcessed =
      st.stats.totalProcessed + 1 ∧
    (processTender cfg env st tenderId forceUpdate).state.stats.successfulWrites =
      st.stats.successfulWrites ∧
    (processTender cfg env st tenderId forceUpdate).committed = [] := by
  simp only [processTender, hfetch, hname]
  split_ifs <;> exact ⟨rfl, rfl, rfl, rfl⟩

/-- Witness for C7: a run over a document with no tender name. -/
theorem c7_witness :
    (processTender ⟨true, defaultFilter, true⟩
        ⟨Except.ok [], ⟨none, [], [], []⟩, fun _ => true⟩
        ⟨[], ⟨0, 0, 0, 0⟩⟩ "T-002".data false).result = Except.ok [] ∧
    (processTender ⟨true, defaultFilter, true⟩
        ⟨Except.ok [], ⟨none, [], [], []⟩, fun _ => true⟩
        ⟨[], ⟨0, 0, 0, 0⟩⟩ "T-002".data false).state.stats.totalProcessed = 0 + 1 ∧
    (processTender ⟨true, defaultFilter, true⟩
        ⟨Except.ok [], ⟨none, [], [], []⟩, fun _ => true⟩
        ⟨[], ⟨0, 0, 0, 0⟩⟩ "T-002".data false).state.stats.successfulWrites = 0 ∧
    (processTender ⟨true, defaultFilter, true⟩
        ⟨Except.ok [], ⟨none, [], [], []⟩, fun _ => true⟩
        ⟨[], ⟨0, 0, 0, 0⟩⟩ "T-002".data false).committed = [] :=
  c7_absent_name_soft_skip ⟨true, defaultFilter, true⟩
    ⟨Except.ok [], ⟨none, [], [], []⟩, fun _ => true⟩
    ⟨[], ⟨0, 0, 0, 0⟩⟩ "T-002".data false [] rfl rfl

/-! ### C9: the preview gate always approves -/

/-- C9.  `WritePreview.should_proceed` returns `True` on every input,
whether preview is enabled or not, so the preview-rejected outcome is
unreachable: `preview_rejected` is unchanged by every `process_tender`
call. -/
theorem c9_preview_gate_always_approves :
    (∀ (enablePreview : Bool) (pd : PreviewData), shouldProceed enablePreview pd = true) ∧
    (∀ (cfg : ProcessorConfig) (env : Env) (st : PState) (tenderId : Str)
        (forceUpdate : Bool),
      (processTender cfg env st tenderId forceUpdate).state.stats.previewRejected =
        st.stats.previewRejected) := by
  have hsp : ∀ (e : Bool) (pd : PreviewData), shouldProceed e pd = true := by
    intro e pd
    cases e <;> rfl
  refine ⟨hsp, ?_⟩
  intro cfg env st tenderId forceUpdate
  rcases henv : env.fetchResult with e | html <;>
    simp only [processTender, henv, hsp] <;>
    split_ifs <;>
    simp_all


/-! ### C2: length boundaries of the content filter -/

/-- C2, counterexample.  The minimum-length check measures the *stripped*
content: a string of exactly `minLength` (10) characters that carries
leading whitespace is rejected as too short, and a string of
`maxLength + 1` characters that is all whitespace is rejected as too short,
not too long. -/
theorem c2_counterexample :
    ("         a".data).length = defaultFilter.minContentLength ∧
    isContentSafe defaultFilter "         a".data = Verdict.tooShort ∧
    (List.replicate (defaultFilter.maxContentLength + 1) ' ').length =
      defaultFilter.maxContentLength + 1 ∧
    isContentSafe defaultFilter (List.replicate (defaultFilter.maxContentLength + 1) ' ') =
      Verdict.tooShort := by
  refine ⟨by decide, by decide, by rw [List.length_replicate], ?_⟩
  have hstrip : stripChars (List.replicate (defaultFilter.maxContentLength + 1) ' ') = [] := by
    unfold stripChars
    rw [List.dropWhile_replicate]
    simp [isSpaceChar]
  unfold isContentSafe
  rw [if_pos]
  right
  rw [hstrip]
  decide

/-- C2, amended.  The boundary behavior, stated over the checks the code
actually performs: content of exactly `minLength` characters that equals its
own strip (no leading or trailing whitespace) and triggers no blacklist
keyword is accepted; content of `minLength - 1` characters is always
rejected as too short; content of exactly `maxLength` characters whose
stripped length reaches `minLength` and which triggers no blacklist keyword
is accepted; content of `maxLength + 1` characters whose stripped length
reaches `minLength` is rejected as too long. -/
theorem c2_amended_length_boundaries (cfg : FilterConfig) :
    (∀ content : Str, content ≠ [] →
      content.length = cfg.minContentLength →
      stripChars content = content →
      cfg.minContentLength ≤ cfg.maxContentLength →
      firstBlacklistHit cfg.blacklistKeywords (content.map lowerChar) = none →
      isContentSafe cfg content = Verdict.safe) ∧
    (∀ content : Str, content.length + 1 = cfg.minContentLength →
      isContentSafe cfg content = Verdict.tooShort) ∧
    (∀ content : Str, content ≠ [] →
      content.length = cfg.maxContentLength →
      cfg.minContentLength ≤ (stripChars content).length →
      firstBlacklistHit cfg.blacklistKeywords (content.map lowerChar) = none →
      isContentSafe cfg content = Verdict.safe) ∧
    (∀ content : Str, content.length = cfg.maxContentLength + 1 →
      cfg.minContentLength ≤ (stripChars content).length →
      isContentSafe cfg content = Verdict.tooLong) := by
  refine ⟨?_, ?_, ?_, ?_⟩
  · intro content hne hlen hstrip hminmax hhit
    unfold isContentSafe
    rw [if_neg, if_neg, hhit]
    · omega
    · rintro (rfl | hlt)
      · exact hne rfl
      · rw [hstrip, hlen] at hlt
        omega
  · intro content hlen
    unfold isContentSafe
    rw [if_pos]
    right
    have := stripChars_length_le content
    omega
  · intro content hne hlen hstrip hhit
    unfold isContentSafe
    rw [if_neg, if_neg, hhit]
    · omega
    · rintro (rfl | hlt)
      · exact hne rfl
      · omega
  · intro content hlen hstrip
    unfold isContentSafe
    rw [if_neg, if_pos]
    · omega
    · rintro (rfl | hlt)
      · simp at hlen
      · omega

/-- Witness for the amended C2 at a small concrete configuration. -/
theorem c2_witness :
    isContentSafe ⟨["z".data], [], 2, 4⟩ "ab".data = Verdict.safe ∧
    isContentSafe ⟨["z".data], [], 2, 4⟩ "a".data = Verdict.tooShort ∧
    isContentSafe ⟨["z".data], [], 2, 4⟩ "abcd".data = Verdict.safe ∧
    isContentSafe ⟨["z".data], [], 2, 4⟩ "abcde".data = Verdict.tooLong :=
  ⟨(c2_amended_length_boundaries ⟨["z".data], [], 2, 4⟩).1 "ab".data
      (by decide) (by decide) (by decide) (by decide) (by decide),
   (c2_amended_length_boundaries ⟨["z".data], [], 2, 4⟩).2.1 "a".data (by decide),
   (c2_amended_length_boundaries ⟨["z".data], [], 2, 4⟩).2.2.1 "abcd".data
      (by decide) (by decide) (by decide) (by decide),
   (c2_amended_length_boundaries ⟨["z".data], [], 2, 4⟩).2.2.2 "abcde".data
      (by decide) (by decide)⟩

/-! ### C10: the blacklist scan lowercases only the content -/

theorem toNat_ofNat_of_lt {n : Nat} (h : n < 55296) : (Char.ofNat n).toNat = n := by
  rw [Char.ofNat, dif_pos (Or.inl h)]
  rfl

theorem isUpperAsciiChar_lowerChar (c : Char) : isUpperAsciiChar (lowerChar c) = false := by
  unfold lowerChar
  split
  · rename_i h
    unfold isUpperAsciiChar at h ⊢
    rw [Bool.and_eq_true, decide_eq_true_iff, decide_eq_true_iff] at h
    rw [toNat_ofNat_of_lt (by omega)]
    simp only [Bool.and_eq_false_iff, decide_eq_false_iff_not]
    right
    omega
  · rename_i h
    unfold isUpperAsciiChar at h ⊢
    simpa using h

/-- C10.  The blacklist scan lowercases only the content, never the
configured keywords: a keyword containing an ASCII uppercase letter can
never occur in the lowercased content, while an all-lowercase keyword that
occurs as a substring of the lowercased content always produces a hit. -/
theorem c10_blacklist_lowercases_only_content (kw content : Str) :
    ((∃ c ∈ kw, isUpperAsciiChar c = true) →
      isSubstring kw (content.map lowerChar) = false) ∧
    (∀ keywords : List Str, kw ∈ keywords → kw.map lowerChar = kw →
      isSubstring kw (content.map lowerChar) = true →
      firstBlacklistHit keywords (content.map lowerChar) ≠ none) := by
  constructor
  · rintro ⟨c, hc, hup⟩
    by_contra hne
    have hs : isSubstring kw (content.map lowerChar) = true := by
      cases hh : isSubstring kw (content.map lowerChar)
      · exact absurd hh hne
      · rfl
    have hmem := isSubstring_subset hs c hc
    obtain ⟨d, _, hd⟩ := List.mem_map.mp hmem
    rw [← hd, isUpperAsciiChar_lowerChar] at hup
    cases hup
  · intro keywords hk hlow hs
    induction keywords with
    | nil => cases hk
    | cons k ks ih =>
      unfold firstBlacklistHit
      split
      · simp
      · rename_i hnk
        rcases List.mem_cons.mp hk with rfl | hk2
        · exact absurd hs (by simpa using hnk)
        · exact ih hk2

/-- Witness for C10: the uppercase keyword "Password" never matches, while
the configured all-lowercase "password" matches "xPassword123y"
case-insensitively. -/
theorem c10_witness :
    isSubstring "Password".data ("xpassword123".data.map lowerChar) = false ∧
    firstBlacklistHit defaultFilter.blacklistKeywords
      ("xPassword123y".data.map lowerChar) ≠ none :=
  ⟨(c10_blacklist_lowercases_only_content "Password".data "xpassword123".data).1
      ⟨'P', by decide, by decide⟩,
   (c10_blacklist_lowercases_only_content "password".data "xPassword123y".data).2
      defaultFilter.blacklistKeywords (by decide) (by decide) (by decide)⟩

/-! ### C8: per-unit commit writes -/

/-- Configuration for the C8 runs: filter disabled, preview enabled. -/
def c8Cfg : ProcessorConfig := ⟨false, defaultFilter, true⟩

/-- A two-episode document for the C8 runs. -/
def c8Doc : TenderDoc :=
  ⟨some "採購案".data, [], [⟨"t1".data, "c1".data⟩, ⟨"t2".data, "c2".data⟩], []⟩

/-- C8 environment in which the first store write fails. -/
def c8EnvFail : Env := ⟨Except.ok [], c8Doc, fun i => decide (i ≠ 0)⟩

/-- C8 environment in which every store write succeeds. -/
def c8EnvOk : Env := ⟨Except.ok [], c8Doc, fun _ => true⟩

/-- C8, counterexample to "the exception is ... counted" for
`TenderProcessor.process_tender`: in a two-unit batch, failing the first
write still commits the second unit (the batch degrades), but the final
statistics are identical to those of a fully successful run — no counter
records the failure, because the processor's `stats` has no error field. -/
theorem c8_counterexample :
    (processTender c8Cfg c8EnvFail ⟨[], ⟨0, 0, 0, 0⟩⟩ "T".data false).committed =
      [⟨"t2".data, "c2".data⟩] ∧
    (processTender c8Cfg c8EnvOk ⟨[], ⟨0, 0, 0, 0⟩⟩ "T".data false).committed =
      [⟨"t1".data, "c1".data⟩, ⟨"t2".data, "c2".data⟩] ∧
    (processTender c8Cfg c8EnvFail ⟨[], ⟨0, 0, 0, 0⟩⟩ "T".data false).state.stats =
      (processTender c8Cfg c8EnvOk ⟨[], ⟨0, 0, 0, 0⟩⟩ "T".data false).state.stats := by
  decide

/-- C8, amended.  Commit writes are attempted strictly per unit, in both
write loops: every unit in the batch consumes exactly one write attempt
(the final write index advances by the batch length, regardless of
failures); a unit is committed exactly when its own write succeeded; and in
`SampleTenderProcessor.process_html_file` every caught failure appends
exactly one entry to the `errors` list, while `TenderProcessor`'s statistics
carry no error counter at all. -/
theorem c8_amended_per_unit_writes (writeOk : Nat → Bool) (idx : Nat)
    (episodes : List Episode) :
    (writeEpisodes writeOk idx episodes).2.2 = idx + episodes.length ∧
    (writeEpisodes writeOk idx episodes).2.1 =
      ((episodes.enumFrom idx).filter (fun p => writeOk p.1)).map (fun p => p.2) ∧
    (writeEpisodes writeOk idx episodes).1 =
      ((episodes.enumFrom idx).filter (fun p => writeOk p.1)).length ∧
    (sampleWriteLoop writeOk idx episodes).2.2 = idx + episodes.length ∧
    (sampleWriteLoop writeOk idx episodes).1 =
      ((episodes.enumFrom idx).filter (fun p => writeOk p.1)).length ∧
    (sampleWriteLoop writeOk idx episodes).2.1 =
      ((episodes.enumFrom idx).filter (fun p => !writeOk p.1)).length := by
  induction episodes generalizing idx with
  | nil => exact ⟨rfl, rfl, rfl, rfl, rfl, rfl⟩
  | cons e rest ih =>
    obtain ⟨ih1, ih2, ih3, ih4, ih5, ih6⟩ := ih (idx + 1)
    unfold writeEpisodes sampleWriteLoop
    simp only [List.enumFrom, List.filter, List.length_cons]
    cases hw : writeOk idx <;>
      refine ⟨?_, ?_, ?_, ?_, ?_, ?_⟩ <;>
      simp [hw, ih1, ih2, ih3, ih4, ih5, ih6] <;>
      omega

/-! ### C4: a fetch failure propagates out of `process_tender` -/

/-- C4, counterexample to "the process call ... ends without propagating the
exception": when every fetch attempt has failed, `process_tender` logs and
re-raises, so its outcome is the propagated exception, and no counter other
than `total_processed` moves. -/
theorem c4_counterexample :
    (processTender ⟨true, defaultFilter, true⟩
        ⟨Except.error (), c8Doc, fun _ => true⟩
        ⟨[], ⟨0, 0, 0, 0⟩⟩ "T-404".data false).result = Except.error () := by
  rfl

/-- C4, amended.  When the fetch fails after its internal retries, the
per-identifier outcome of `process_tender` is: the exception is logged and
re-raised to the caller (the result is the propagated error), nothing is
committed, the identifier is not marked processed, and of the statistics
only `total_processed` is incremented — there is no error counter. -/
theorem c4_amended_fetch_failure_propagates (cfg : ProcessorConfig) (env : Env)
    (st : PState) (tenderId : Str) (forceUpdate : Bool)
    (hfetch : env.fetchResult = Except.error ())
    (hnew : tenderId ∉ st.processedTenders) :
    (processTender cfg env st tenderId forceUpdate).result = Except.error () ∧
    (processTender cfg env st tenderId forceUpdate).committed = [] ∧
    (processTender cfg env st tenderId forceUpdate).state =
      { st with stats := { st.stats with totalProcessed := st.stats.totalProcessed + 1 } } := by
  simp only [processTender, hfetch]
  rw [if_neg]
  · exact ⟨rfl, rfl, rfl⟩
  · rintro ⟨-, hmem⟩
    exact hnew hmem

/-- Witness for the amended C4 at a concrete failing fetch. -/
theorem c4_witness :
    (processTender ⟨true, defaultFilter, true⟩
        ⟨Except.error (), c8Doc, fun _ => true⟩
        ⟨[], ⟨3, 1, 0, 0⟩⟩ "T-405".data false).result = Except.error () ∧
    (processTender ⟨true, defaultFilter, true⟩
        ⟨Except.error (), c8Doc, fun _ => true⟩
        ⟨[], ⟨3, 1, 0, 0⟩⟩ "T-405".data false).committed = [] ∧
    (processTender ⟨true, defaultFilter, true⟩
        ⟨Except.error (), c8Doc, fun _ => true⟩
        ⟨[], ⟨3, 1, 0, 0⟩⟩ "T-405".data false).state =
      ⟨[], ⟨3 + 1, 1, 0, 0⟩⟩ :=
  c4_amended_fetch_failure_propagates ⟨true, defaultFilter, true⟩
    ⟨Except.error (), c8Doc, fun _ => true⟩ ⟨[], ⟨3, 1, 0, 0⟩⟩
    "T-405".data false rfl (by decide)

/-! ### C1: what the content filter guarantees about committed units -/

theorem firstBlacklistHit_eq_none {keywords : List Str} {l : Str}
    (h : firstBlacklistHit keywords l = none) :
    ∀ kw ∈ keywords, isSubstring kw l = false := by
  induction keywords with
  | nil => intro kw hkw; cases hkw
  | cons k ks ih =>
    unfold firstBlacklistHit at h
    split at h
    · cases h
    · rename_i hk
      intro kw hkw
      rcases List.mem_cons.mp hkw with rfl | h2
      · simpa using hk
      · exact ih h kw h2

theorem safe_no_blacklist_hit {cfg : FilterConfig} {content : Str}
    (h : isContentSafe cfg content = Verdict.safe) :
    ∀ kw ∈ cfg.blacklistKeywords, isSubstring kw (content.map lowerChar) = false := by
  unfold isContentSafe at h
  split at h
  · cases h
  · split at h
    · cases h
    · split at h
      · cases h
      · rename_i hnone
        exact firstBlacklistHit_eq_none hnone

theorem filterEpisodes_mem {cfg : FilterConfig} {eps : List Episode} {n : Nat} {e : Episode}
    (he : e ∈ (filterEpisodes cfg eps n).1) :
    ∃ orig : Episode, orig ∈ eps ∧ isContentSafe cfg orig.content = Verdict.safe ∧
      e = ⟨orig.title, cleanContent orig.content⟩ := by
  induction eps generalizing n with
  | nil => cases he
  | cons a rest ih =>
    unfold filterEpisodes at he
    split at he
    · rename_i hsafe
      rcases List.mem_cons.mp he with rfl | hmem
      · exact ⟨a, List.mem_cons_self _ _, hsafe, rfl⟩
      · obtain ⟨o, ho, hs, he2⟩ := ih hmem
        exact ⟨o, List.mem_cons_of_mem _ ho, hs, he2⟩
    · obtain ⟨o, ho, hs, he2⟩ := ih he
      exact ⟨o, List.mem_cons_of_mem _ ho, hs, he2⟩

theorem writeEpisodes_mem {f : Nat → Bool} {idx : Nat} {eps : List Episode} {e : Episode}
    (he : e ∈ (writeEpisodes f idx eps).2.1) : e ∈ eps := by
  induction eps generalizing idx with
  | nil => cases he
  | cons a rest ih =>
    unfold writeEpisodes at he
    split at he
    · rcases List.mem_cons.mp he with rfl | hmem
      · exact List.mem_cons_self _ _
      · exact List.mem_cons_of_mem _ (ih hmem)
    · exact List.mem_cons_of_mem _ (ih he)

theorem entitySummaryStep_mem {cfg : ProcessorConfig} {doc : TenderDoc} {f : Nat → Bool}
    {idx : Nat} {e : Episode} (hf : cfg.enableContentFilter = true)
    (he : e ∈ (entitySummaryStep cfg doc f idx).2) :
    isContentSafe cfg.filter (entitySummaryText doc.entities) = Verdict.safe ∧
    e.content = cleanContent (entitySummaryText doc.entities) := by
  unfold entitySummaryStep at he
  rw [hf] at he
  split at he
  · cases he
  · simp only [if_true] at he
    split at he
    · rename_i hsafe
      split at he
      · rcases List.mem_cons.mp he with rfl | hmem
        · exact ⟨hsafe, rfl⟩
        · cases hmem
      · cases he
    · cases he

/-- C1, amended.  With the content filter enabled, every unit committed to
the external store during a `process_tender` call is the sanitization of a
content string that the filter accepted, and that *accepted* (original)
content contains no blacklisted term in its lowercased form.  (The
counterexample below shows the sanitized content itself may contain one,
because sanitization runs after the blacklist scan.) -/
theorem c1_amended_committed_content_was_accepted (cfg : ProcessorConfig) (env : Env)
    (st : PState) (tenderId : Str) (forceUpdate : Bool)
    (hf : cfg.enableContentFilter = true) :
    ∀ e ∈ (processTender cfg env st tenderId forceUpdate).committed,
      ∃ orig : Str, isContentSafe cfg.filter orig = Verdict.safe ∧
        e.content = cleanContent orig ∧
        ∀ kw ∈ cfg.filter.blacklistKeywords, isSubstring kw (orig.map lowerChar) = false := by
  intro e he
  rcases henv : env.fetchResult with u | html
  · simp only [processTender, henv] at he
    split at he <;> simp at he
  · simp only [processTender, henv, hf, eq_self_iff_true, true_and, if_true] at he
    split at he
    · simp at he
    · split at he
      · simp at he
      · split at he
        · simp at he
        · split at he
          · simp at he
          · split at he
            · simp at he
            · simp only [] at he
              rcases List.mem_append.mp he with hmem | hmem
              · obtain ⟨o, _, hs, he2⟩ := filterEpisodes_mem (writeEpisodes_mem hmem)
                refine ⟨o.content, hs, ?_, safe_no_blacklist_hit hs⟩
                rw [he2]
              · obtain ⟨hs, hc⟩ := entitySummaryStep_mem hf hmem
                exact ⟨entitySummaryText env.doc.entities, hs, hc,
                  safe_no_blacklist_hit hs⟩

/-- Configuration for the C1 runs: content filter and preview enabled. -/
def c1Cfg : ProcessorConfig := ⟨true, defaultFilter, true⟩

/-- C1 environment: one episode whose content "pass@word12" passes the
filter, because the "@" splits the blacklisted term. -/
def c1Env : Env :=
  ⟨Except.ok [],
   ⟨some "案".data, [], [⟨"標題".data, "pass@word12".data⟩], []⟩,
   fun _ => true⟩

/-- C1, counterexample to "the committed (sanitized) content contains no
blacklisted term": the accepted content "pass@word12" sanitizes to
"password12" (the sanitizer deletes the "@"), so the unit committed to the
store contains the blacklisted term "password". -/
theorem c1_counterexample :
    (processTender c1Cfg c1Env ⟨[], ⟨0, 0, 0, 0⟩⟩ "T-001".data false).committed =
      [⟨"標題".data, "password12".data⟩] ∧
    "password".data ∈ defaultFilter.blacklistKeywords ∧
    isSubstring "password".data ("password12".data.map lowerChar) = true := by
  decide

/-- Witness for the amended C1 at the concrete run of `c1Env`. -/
theorem c1_witness :
    ∃ orig : Str, isContentSafe c1Cfg.filter orig = Verdict.safe ∧
      (Episode.mk "標題".data "password12".data).content = cleanContent orig ∧
      ∀ kw ∈ c1Cfg.filter.blacklistKeywords, isSubstring kw (orig.map lowerChar) = false :=
  c1_amended_committed_content_was_accepted c1Cfg c1Env ⟨[], ⟨0, 0, 0, 0⟩⟩
    "T-001".data false rfl ⟨"標題".data, "password12".data⟩ (by decide)

/-! ### C3: the identity key -/

theorem hexBytes_append (l1 l2 : List Nat) :
    hexBytes (l1 ++ l2) = hexBytes l1 ++ hexBytes l2 := by
  induction l1 with
  | nil => rfl
  | cons b t ih =>
    show hexByte b ++ hexBytes (t ++ l2) = (hexByte b ++ hexBytes t) ++ hexBytes l2
    rw [ih, List.append_assoc]

theorem hexBytes_length (l : List Nat) : (hexBytes l).length = 2 * l.length := by
  induction l with
  | nil => rfl
  | cons b t ih =>
    show (hexByte b ++ hexBytes t).length = 2 * (t.length + 1)
    rw [List.length_append, ih, hexByte]
    simp
    omega

/-- The first 8 hex characters of the digest are exactly the hex rendering
of the little-endian bytes of the final `a` word. -/
theorem getContentHash_eq (title content : Str) :
    getContentHash title content =
      hexBytes (bytesLE4 (md5FinalState (utf8Encode (title ++ [':'] ++ content))).a) := by
  unfold getContentHash md5Digest
  rw [List.append_assoc, List.append_assoc, hexBytes_append]
  have h8 : (hexBytes (bytesLE4 (md5FinalState
      (utf8Encode (title ++ [':'] ++ content))).a)).length = 8 := by
    rw [hexBytes_length]
    rfl
  rw [← h8, List.take_left]

theorem getContentHash_length (title content : Str) :
    (getContentHash title content).length = 8 := by
  rw [getContentHash_eq, hexBytes_length]
  rfl

theorem foldl_md5ProcessBlock_a_lt (blocks : List (List Nat)) (st : MD5State)
    (h : st.a < 4294967296) : (blocks.foldl md5ProcessBlock st).a < 4294967296 := by
  induction blocks generalizing st with
  | nil => exact h
  | cons b rest ih =>
    apply ih
    exact Nat.mod_lt _ (by norm_num)

theorem md5FinalState_a_lt (msg : List Nat) : (md5FinalState msg).a < 4294967296 :=
  foldl_md5ProcessBlock_a_lt _ md5Init (by norm_num [md5Init])

theorem getUniqueName_title_inj {t1 c1 t2 c2 : Str}
    (h : getUniqueName t1 c1 = getUniqueName t2 c2) : t1 = t2 := by
  unfold getUniqueName at h
  have hlen : t1.length = t2.length := by
    have hl := congrArg List.length h
    simp only [List.length_append, getContentHash_length, List.length_singleton] at hl
    omega
  have hlen2 : (t1 ++ ['_']).length = (t2 ++ ['_']).length := by
    simp [hlen]
  have h2 := (List.append_inj h hlen2).1
  have hlen3 : t1.length = t2.length := hlen
  exact (List.append_inj h2 hlen3).1

/-- C3, counterexample to "changing the content changes the identity key":
the key embeds only 8 hex characters (32 bits) of the MD5 digest, so over
the infinitely many contents `replicate n 'x'` two distinct contents must
collide on the same key (pigeonhole); the claim, read as universal
injectivity in the content, is false. -/
theorem c3_counterexample :
    ¬ ∀ (title c1 c2 : Str), c1 ≠ c2 →
        getUniqueName title c1 ≠ getUniqueName title c2 := by
  intro hinj
  obtain ⟨n1, n2, hne, heq⟩ :=
    Finite.exists_ne_map_eq_of_infinite
      (fun n : Nat =>
        (⟨(md5FinalState (utf8Encode (['a'] ++ [':'] ++ List.replicate n 'x'))).a,
          md5FinalState_a_lt _⟩ : Fin 4294967296))
  have hc : List.replicate n1 'x' ≠ List.replicate n2 'x' := by
    intro hr
    apply hne
    have hl := congrArg List.length hr
    simpa using hl
  apply hinj ['a'] (List.replicate n1 'x') (List.replicate n2 'x') hc
  unfold getUniqueName
  congr 1
  rw [getContentHash_eq, getContentHash_eq]
  have hval : (md5FinalState (utf8Encode (['a'] ++ [':'] ++ List.replicate n1 'x'))).a =
      (md5FinalState (utf8Encode (['a'] ++ [':'] ++ List.replicate n2 'x'))).a :=
    congrArg Fin.val heq
  rw [hval]

/-- C3, amended.  The identity key is deterministic — equal (title, content)
pairs always yield equal keys — and changing the *title* always changes the
key (the hash suffix has fixed length 8, so the key determines the title);
changing the content changes the key only up to collisions of the truncated
32-bit digest, which must exist (see the counterexample). -/
theorem c3_amended_identity_key (t1 c1 t2 c2 : Str) :
    (t1 = t2 → c1 = c2 → getUniqueName t1 c1 = getUniqueName t2 c2) ∧
    (t1 ≠ t2 → getUniqueName t1 c1 ≠ getUniqueName t2 c2) := by
  constructor
  · rintro rfl rfl
    rfl
  · intro hne h
    exact hne (getUniqueName_title_inj h)

/-- Witness for the amended C3 at concrete titles and contents. -/
theorem c3_witness :
    getUniqueName "a".data "x".data = getUniqueName "a".data "x".data ∧
    getUniqueName "a".data "x".data ≠ getUniqueName "b".data "x".data :=
  ⟨(c3_amended_identity_key "a".data "x".data "a".data "x".data).1 rfl rfl,
   (c3_amended_identity_key "a".data "x".data "b".data "x".data).2 (by decide)⟩

end TenderSpec
